import Mathlib

/-!
CryptHook: per-packet AES-GCM framing and the four socket shims.

A shallow embedding of `crypthook.c`.  Buffers are lists of bytes, C integer
conversions are explicit, and everything the C file obtains from a library
(`getenv`, PBKDF2, `RAND_bytes`, the EVP cipher calls, the genuine socket
primitives found through `dlsym`) is a field of `Env`.
-/

namespace CryptHook

/-- One `char` of a C buffer. -/
abbrev Byte := Fin 256

/-- A `struct sockaddr` as the bytes it occupies. -/
abbrev SockAddr := List Byte

/-- The bytes of a C string literal, without the terminating NUL. -/
def cstr (s : String) : List Byte := s.toList.map (fun c => Fin.ofNat c.toNat)

/-- C `strlen` on a string held without its terminator. -/
def strlen (s : List Byte) : Nat := s.length

/-- Source constant `#define KEY_VAR "CH_KEY"`. -/
def KEY_VAR : List Byte := cstr "CH_KEY"

/-- Source constant `#define PASSPHRASE "Hello NSA"`. -/
def PASSPHRASE : List Byte := cstr "Hello NSA"

/-- Source constant `#define MAX_LEN 65535`. -/
def MAX_LEN : Nat := 65535

/-- Source constant `#define KEY_SIZE 32`. -/
def KEY_SIZE : Nat := 32

/-- Source constant `#define PACKET_HEADER 0x17`. -/
def PACKET_HEADER : Byte := 0x17

/-- Source constant `#define IV_RAND 8`. -/
def IV_RAND : Nat := 8

/-- Source constant `#define IV_SALT "changeme"`. -/
def IV_SALT : List Byte := cstr "changeme"

/-- Source constant `#define IV_SIZE 12`. -/
def IV_SIZE : Nat := 12

/-- Source constant `#define HEADER_SIZE 25`. -/
def HEADER_SIZE : Nat := 25

/-- Source constant `#define ITERATIONS 1000`. -/
def ITERATIONS : Nat := 1000

/-- The local `const unsigned char salt[]="changeme"` of `gen_key`. -/
def salt : List Byte := cstr "changeme"

/-- The name the specification gives to `MAX_LEN - HEADER_SIZE`; the C file has no such constant. -/
def MAX_PAYLOAD : Nat := MAX_LEN - HEADER_SIZE

/-- Conversion of an integer value to C `int` (32-bit two's complement). -/
def to_int (x : Int) : Int := (x + 2147483648) % 4294967296 - 2147483648

/-- Conversion of an integer value to `size_t` (64-bit unsigned). -/
def to_size_t (x : Int) : Nat := (x % 18446744073709551616).toNat

/-- Conversion of an integer value to `ssize_t` (64-bit two's complement). -/
def to_ssize_t (x : Int) : Int :=
  (x + 9223372036854775808) % 18446744073709551616 - 9223372036854775808

/-- A buffer of `n` bytes all equal to `c`: `memset(buf, c, n)` on an `n`-byte array.
Arrays the C code leaves uninitialised are also introduced as `memset 0 n`. -/
def memset (c : Byte) (n : Nat) : List Byte := List.replicate n c

/-- The state of `dst` after `memcpy(dst + off, src, n)`.  Inside the bounds of `dst` this
overwrites `n` bytes in place; a copy that runs past the end of `dst` makes the list longer,
the extra bytes being those stored past the end of the array. -/
def memcpy (dst : List Byte) (off : Nat) (src : List Byte) (n : Nat) : List Byte :=
  dst.take off ++ src.take n ++ dst.drop (off + n)

/-- What the C file takes from its libraries and from the process it is loaded into. -/
structure Env where
  /-- Environment lookup: `getenv(name)`, `none` for `NULL`. -/
  getenv : List Byte → Option (List Byte)
  /-- Library call `PKCS5_PBKDF2_HMAC_SHA1(pass, passlen, salt, saltlen, iter, keylen, out)`:
  the bytes stored in `out`. -/
  PKCS5_PBKDF2_HMAC_SHA1 : List Byte → Nat → List Byte → Nat → Nat → Nat → List Byte
  /-- Library call `RAND_bytes(buf, num)`: the value returned (1 on success) and the contents
  of `buf` after the call, whatever they are when the call fails. -/
  RAND_bytes : List Byte → Nat → Int × List Byte
  /-- Library call `EVP_EncryptUpdate` on a context initialised for AES-256-GCM with `key` and
  `iv`, given the `inl` bytes `inp`: `none` when it returns 0, otherwise the bytes it emits. -/
  EVP_EncryptUpdate : List Byte → List Byte → List Byte → Int → Option (List Byte)
  /-- Library call `EVP_EncryptFinal_ex` on the context that was fed `inp`: `none` when it
  returns 0, otherwise the bytes it emits. -/
  EVP_EncryptFinal_ex : List Byte → List Byte → List Byte → Option (List Byte)
  /-- Library call `EVP_CIPHER_CTX_ctrl(ctx, EVP_CTRL_GCM_GET_TAG, 16, tag)` after sealing
  `inp`: the bytes stored in `tag`. -/
  EVP_CTRL_GCM_GET_TAG : List Byte → List Byte → List Byte → List Byte
  /-- Library call `EVP_DecryptUpdate` for `key`, `iv` on the `inl` bytes `inp`: `none` when it
  returns 0, otherwise the bytes it emits. -/
  EVP_DecryptUpdate : List Byte → List Byte → List Byte → Int → Option (List Byte)
  /-- Library call `EVP_DecryptFinal_ex` for `key`, `iv` on the context that was fed `inp` and
  given the expected `tag`: `none` when tag verification fails (it returns 0), otherwise the
  bytes it emits. -/
  EVP_DecryptFinal_ex : List Byte → List Byte → List Byte → List Byte → Option (List Byte)
  /-- The genuine `recv(sockfd, buf, len, flags)`: value returned and contents of `buf` after. -/
  old_recv : Int → List Byte → Nat → Int → Int × List Byte
  /-- The genuine `recvfrom`: value returned, then `buf`, `*src_addr` and `*addrlen` after. -/
  old_recvfrom :
    Int → List Byte → Nat → Int → SockAddr → Nat → Int × List Byte × SockAddr × Nat
  /-- The genuine `send(sockfd, buf, len, flags)`: value returned. -/
  old_send : Int → List Byte → Nat → Int → Int
  /-- The genuine `sendto(sockfd, buf, len, flags, dest_addr, addrlen)`: value returned. -/
  old_sendto : Int → List Byte → Nat → Int → SockAddr → Nat → Int

/-- Function `gen_key`: the 32 bytes stored in `phrase`. -/
def gen_key (env : Env) : List Byte :=
  match env.getenv KEY_VAR with
  | some key_var =>
    env.PKCS5_PBKDF2_HMAC_SHA1 key_var (strlen key_var) salt (strlen salt) ITERATIONS KEY_SIZE
  | none =>
    env.PKCS5_PBKDF2_HMAC_SHA1 PASSPHRASE (strlen PASSPHRASE) salt (strlen salt) ITERATIONS KEY_SIZE

/-- Function `gen_iv`: the bytes stored in `iv`, and `random_data` after the call.  The value
`RAND_bytes` returns is dropped, as in the C code. -/
def gen_iv (env : Env) (new : Int) (random_data : List Byte) : List Byte × List Byte :=
  let random_data := if new = 1 then (env.RAND_bytes random_data IV_RAND).2 else random_data
  (env.PKCS5_PBKDF2_HMAC_SHA1 random_data IV_RAND IV_SALT (strlen IV_SALT) ITERATIONS IV_SIZE,
    random_data)

/-- Result of `encrypt_data` / `decrypt_data`: the `int` returned and the buffer `out`
points to, as it is after the call. -/
structure CodecResult where
  ret : Int
  out : List Byte
deriving DecidableEq

/-- Function `encrypt_data(in, len, out)`: seal `len` bytes of `in` and frame them in `out`. -/
def encrypt_data (env : Env) (inp : List Byte) (len : Int) (out : List Byte) : CodecResult :=
  let outbuf := memset 0 MAX_LEN
  let temp := memcpy (memset 0 MAX_LEN) 0 inp (to_size_t len)
  let key := gen_key env
  let g := gen_iv env 1 (memset 0 IV_RAND)
  let iv := g.1
  let random_data := g.2
  let fed := temp.take len.toNat
  match env.EVP_EncryptUpdate key iv fed len with
  | none => ⟨0, out⟩
  | some c =>
    let outlen : Nat := c.length
    let outbuf := memcpy outbuf 0 c outlen
    match env.EVP_EncryptFinal_ex key iv fed with
    | none => ⟨0, out⟩
    | some f =>
      let tmplen : Nat := f.length
      let outbuf := memcpy outbuf outlen f tmplen
      let tag := env.EVP_CTRL_GCM_GET_TAG key iv fed
      let out := memcpy out 0 [PACKET_HEADER] 1
      let out := memcpy out 1 random_data IV_RAND
      let out := memcpy out (1 + IV_RAND) tag 16
      let out := memcpy out (1 + IV_RAND + 16) outbuf (outlen + tmplen)
      ⟨(outlen : Int) + tmplen + HEADER_SIZE, out⟩

/-- Function `decrypt_data(in, len, out)`: parse the header of `in`, open `len` bytes of
ciphertext and copy the plaintext to `out`. -/
def decrypt_data (env : Env) (inp : List Byte) (len : Int) (out : List Byte) : CodecResult :=
  let outbuf := memset 0 MAX_LEN
  let random_data := memcpy (memset 0 IV_RAND) 0 (inp.drop 1) IV_RAND
  let tag := memcpy (memset 0 16) 0 (inp.drop (1 + IV_RAND)) 16
  let step := inp.drop (1 + IV_RAND + 16)
  let key := gen_key env
  let iv := (gen_iv env 0 random_data).1
  let fed := step.take len.toNat
  match env.EVP_DecryptUpdate key iv fed len with
  | none => ⟨0, out⟩
  | some p =>
    let outlen : Nat := p.length
    let outbuf := memcpy outbuf 0 p outlen
    match env.EVP_DecryptFinal_ex key iv fed tag with
    | none => ⟨0, out⟩
    | some f =>
      let tmplen : Nat := f.length
      let outbuf := memcpy outbuf outlen f tmplen
      ⟨len, memcpy out 0 outbuf (outlen + tmplen)⟩

/-- A call a shim makes: to one of the genuine primitives or to the codec. -/
inductive Call where
  | old_recv (sockfd : Int) (buf : List Byte) (len : Nat) (flags : Int)
  | old_recvfrom (sockfd : Int) (buf : List Byte) (len : Nat) (flags : Int)
      (src_addr : SockAddr) (addrlen : Nat)
  | old_send (sockfd : Int) (buf : List Byte) (len : Nat) (flags : Int)
  | old_sendto (sockfd : Int) (buf : List Byte) (len : Nat) (flags : Int)
      (dest_addr : SockAddr) (addrlen : Nat)
  | encrypt_data (inp : List Byte) (len : Int)
  | decrypt_data (inp : List Byte) (len : Int)
deriving DecidableEq

/-- What a receive shim leaves behind: the value returned, the caller's `buf`, `*src_addr`
and `*addrlen` after the call, and the calls made, in order. -/
structure RecvResult where
  ret : Int
  buf : List Byte
  src_addr : SockAddr
  addrlen : Nat
  calls : List Call
deriving DecidableEq

/-- What a send shim leaves behind: the value returned and the calls made, in order. -/
structure SendResult where
  ret : Int
  calls : List Call
deriving DecidableEq

/-- The hooked `recv(sockfd, buf, len, flags)`.  It has no address arguments; the two address
fields of the result are empty. -/
def recv (env : Env) (sockfd : Int) (buf : List Byte) (len : Nat) (flags : Int) : RecvResult :=
  let outbuf := memset 0 MAX_LEN
  let temp := memset 0 MAX_LEN
  if sockfd = 0 then
    let r := env.old_recv sockfd buf len flags
    ⟨r.1, r.2, [], 0, [Call.old_recv sockfd buf len flags]⟩
  else
    let r := env.old_recv sockfd temp MAX_LEN flags
    let ret := to_int r.1
    let temp := r.2
    let c1 := Call.old_recv sockfd (memset 0 MAX_LEN) MAX_LEN flags
    if ret < 1 then
      ⟨ret, buf, [], 0, [c1]⟩
    else if temp.getD 0 0 ≠ PACKET_HEADER then
      ⟨0, buf, [], 0, [c1]⟩
    else
      let d := decrypt_data env temp (ret - HEADER_SIZE) outbuf
      let outlen := d.ret
      ⟨outlen, memcpy buf 0 d.out (to_size_t outlen), [], 0,
        [c1, Call.decrypt_data temp (ret - HEADER_SIZE)]⟩

/-- The hooked `recvfrom(sockfd, buf, len, flags, src_addr, addrlen)`. -/
def recvfrom (env : Env) (sockfd : Int) (buf : List Byte) (len : Nat) (flags : Int)
    (src_addr : SockAddr) (addrlen : Nat) : RecvResult :=
  let outbuf := memset 0 MAX_LEN
  let temp := memset 0 MAX_LEN
  if sockfd = 0 then
    let r := env.old_recvfrom sockfd buf len flags src_addr addrlen
    ⟨r.1, r.2.1, r.2.2.1, r.2.2.2, [Call.old_recvfrom sockfd buf len flags src_addr addrlen]⟩
  else
    let r := env.old_recvfrom sockfd temp MAX_LEN flags src_addr addrlen
    let ret := to_int r.1
    let temp := r.2.1
    let c1 := Call.old_recvfrom sockfd (memset 0 MAX_LEN) MAX_LEN flags src_addr addrlen
    if ret < 1 then
      ⟨ret, buf, r.2.2.1, r.2.2.2, [c1]⟩
    else if temp.getD 0 0 ≠ PACKET_HEADER then
      ⟨0, buf, r.2.2.1, r.2.2.2, [c1]⟩
    else
      let d := decrypt_data env temp (ret - HEADER_SIZE) outbuf
      let outlen := d.ret
      ⟨outlen, memcpy buf 0 d.out (to_size_t outlen), r.2.2.1, r.2.2.2,
        [c1, Call.decrypt_data temp (ret - HEADER_SIZE)]⟩

/-- The hooked `send(sockfd, buf, len, flags)`. -/
def send (env : Env) (sockfd : Int) (buf : List Byte) (len : Nat) (flags : Int) : SendResult :=
  let outbuf := memset 0 MAX_LEN
  let e := encrypt_data env buf (to_int len) outbuf
  let outlen := e.ret
  let c1 := Call.encrypt_data buf (to_int len)
  if outlen = 0 then
    ⟨0, [c1]⟩
  else
    let _sent := env.old_send sockfd e.out (to_size_t outlen) flags
    ⟨to_ssize_t len, [c1, Call.old_send sockfd e.out (to_size_t outlen) flags]⟩

/-- The hooked `sendto(sockfd, buf, len, flags, dest_addr, addrlen)`. -/
def sendto (env : Env) (sockfd : Int) (buf : List Byte) (len : Nat) (flags : Int)
    (dest_addr : SockAddr) (addrlen : Nat) : SendResult :=
  let outbuf := memset 0 MAX_LEN
  let e := encrypt_data env buf (to_int len) outbuf
  let outlen := e.ret
  let c1 := Call.encrypt_data buf (to_int len)
  if outlen = 0 then
    ⟨0, [c1]⟩
  else
    let _sent := env.old_sendto sockfd e.out (to_size_t outlen) flags dest_addr addrlen
    ⟨to_ssize_t len,
      [c1, Call.old_sendto sockfd e.out (to_size_t outlen) flags dest_addr addrlen]⟩

/-- Shape facts about the primitives that `encrypt_data` relies on: `RAND_bytes` keeps the
size of the buffer it fills, a GCM tag is 16 bytes, AES-GCM emits as many bytes as it is fed,
and the final call emits none. -/
structure SealLaws (env : Env) : Prop where
  rand_len : ∀ buf n, n ≤ buf.length → (env.RAND_bytes buf n).2.length = buf.length
  tag_len : ∀ key iv inp, (env.EVP_CTRL_GCM_GET_TAG key iv inp).length = 16
  update_len : ∀ key iv inp inl c,
    env.EVP_EncryptUpdate key iv inp inl = some c → c.length = inp.length
  final_nil : ∀ key iv inp f, env.EVP_EncryptFinal_ex key iv inp = some f → f = []

/-- AES-GCM open inverts seal under the same key and nonce: the ciphertext of `inp` decrypts
to `inp`, and the tag produced when sealing verifies. -/
structure OpenInvertsSeal (env : Env) : Prop where
  open_seal : ∀ key iv inp inl c,
    env.EVP_EncryptUpdate key iv inp inl = some c →
    env.EVP_EncryptFinal_ex key iv inp = some [] →
    env.EVP_DecryptUpdate key iv c inl = some inp ∧
    env.EVP_DecryptFinal_ex key iv c (env.EVP_CTRL_GCM_GET_TAG key iv inp) = some []

/-- Keystream byte of the stand-in cipher used in the worked examples. -/
def demo_mask (key iv : List Byte) : Byte := (key ++ iv).foldl (· + ·) 1

/-- Tag of the stand-in cipher: 16 copies of a checksum of the ciphertext. -/
def demo_tag (key iv ct : List Byte) : List Byte :=
  List.replicate 16 (ct.foldl (· + ·) (demo_mask key iv))

/-- A concrete environment for worked examples.  `CH_KEY` is `omghax`; the cipher is a
stand-in (a byte shift with a checksum tag) that rejects negative lengths as OpenSSL does;
`rand_ok` says whether `RAND_bytes` succeeds (on failure it leaves the buffer alone); the
genuine receive primitives deliver `wire`; the genuine send primitives report the length
they were given. -/
def demoEnv (rand_ok : Bool) (wire : List Byte) : Env where
  getenv := fun name => if name = KEY_VAR then some (cstr "omghax") else none
  PKCS5_PBKDF2_HMAC_SHA1 := fun pass passlen slt saltlen iter keylen =>
    List.replicate keylen ((pass.take passlen ++ slt.take saltlen).foldl (· + ·) (Fin.ofNat iter))
  RAND_bytes := fun buf num =>
    if rand_ok then (1, List.replicate num 0xA5 ++ buf.drop num) else (0, buf)
  EVP_EncryptUpdate := fun key iv inp inl =>
    if inl < 0 then none else some (inp.map (· + demo_mask key iv))
  EVP_EncryptFinal_ex := fun _ _ _ => some []
  EVP_CTRL_GCM_GET_TAG := fun key iv inp => demo_tag key iv (inp.map (· + demo_mask key iv))
  EVP_DecryptUpdate := fun key iv inp inl =>
    if inl < 0 then none else some (inp.map (· - demo_mask key iv))
  EVP_DecryptFinal_ex := fun key iv inp tag =>
    if tag = demo_tag key iv inp then some [] else none
  old_recv := fun _ buf len _ =>
    (((min wire.length len : Nat) : Int), memcpy buf 0 wire (min wire.length len))
  old_recvfrom := fun _ buf len _ src_addr addrlen =>
    (((min wire.length len : Nat) : Int), memcpy buf 0 wire (min wire.length len),
      src_addr, addrlen)
  old_send := fun _ _ len _ => (len : Int)
  old_sendto := fun _ _ len _ _ _ => (len : Int)

/-- The five bytes of `hello`. -/
def hello : List Byte := cstr "hello"


/-- The packet `encrypt_data` builds from `hello` in the worked-example environment. -/
def hello_packet : List Byte :=
  [0x17, 165, 165, 165, 165, 165, 165, 165, 165,
    90, 90, 90, 90, 90, 90, 90, 90, 90, 90, 90, 90, 90, 90, 90, 90,
    73, 70, 77, 77, 80]

/-- The packet `hello_packet` with the lowest bit of its last ciphertext byte flipped. -/
def tampered_packet : List Byte :=
  [0x17, 165, 165, 165, 165, 165, 165, 165, 165,
    90, 90, 90, 90, 90, 90, 90, 90, 90, 90, 90, 90, 90, 90, 90, 90,
    73, 70, 77, 77, 81]

/-- Three bytes from a peer that does not speak the protocol. -/
def foreign_packet : List Byte := [0x16, 0x03, 0x01]

/-- A 10-byte read that starts with the marker. -/
def short_packet : List Byte := [0x17, 1, 2, 3, 4, 5, 6, 7, 8, 9]

/-- The packet `encrypt_data` builds from `hello` in the worked-example environment when
`RAND_bytes` fails: its seed is the eight zero bytes the buffer held before the call. -/
def unseeded_packet : List Byte :=
  [0x17, 0, 0, 0, 0, 0, 0, 0, 0,
    26, 26, 26, 26, 26, 26, 26, 26, 26, 26, 26, 26, 26, 26, 26, 26,
    105, 102, 109, 109, 112]

/-! ## Buffer and conversion lemmas -/

theorem to_size_t_natCast (n : Nat) (h : n < 18446744073709551616) : to_size_t (n : Int) = n := by
  unfold to_size_t
  omega

theorem to_int_natCast (n : Nat) (h : n < 2147483648) : to_int (n : Int) = n := by
  unfold to_int
  omega

theorem to_ssize_t_natCast (n : Nat) (h : n < 9223372036854775808) :
    to_ssize_t (n : Int) = n := by
  unfold to_ssize_t
  omega

theorem memset_length (c : Byte) (n : Nat) : (memset c n).length = n := by
  simp [memset]

theorem memcpy_zero_bytes (dst src : List Byte) : memcpy dst 0 src 0 = dst := by
  simp [memcpy]

theorem memcpy_at_zero (dst src : List Byte) (n : Nat) :
    memcpy dst 0 src n = src.take n ++ dst.drop n := by
  simp [memcpy]

theorem take_three (a b c d : List Byte) (n : Nat) (h : a.length + b.length + c.length = n) :
    List.take n (a ++ (b ++ (c ++ d))) = a ++ (b ++ c) := by
  rw [← List.append_assoc b, ← List.append_assoc a]
  exact List.take_left' (by simp [← h]; omega)

theorem memcpy_front (dst src : List Byte) :
    memcpy dst 0 src src.length = src ++ dst.drop src.length := by
  simp [memcpy]

theorem memcpy_fresh (src : List Byte) (n : Nat) :
    memcpy (memset 0 n) 0 src n = src.take n := by
  simp [memcpy, memset]

theorem temp_take (inp : List Byte) (n : Nat) (h : n ≤ inp.length)
    (hn : n < 18446744073709551616) :
    (memcpy (memset 0 MAX_LEN) 0 inp (to_size_t (n : Int))).take (n : Int).toNat
      = inp.take n := by
  rw [to_size_t_natCast n hn]
  simp only [memcpy, Int.toNat_ofNat, List.take_zero, List.nil_append, Nat.zero_add]
  exact List.take_left' (by simp [h])

theorem outbuf_take (c f : List Byte) :
    (memcpy (memcpy (memset 0 MAX_LEN) 0 c c.length) c.length f f.length).take
      (c.length + f.length) = c ++ f := by
  rw [memcpy_front]
  simp only [memcpy, List.take_length, List.take_left, List.append_assoc]
  rw [← List.append_assoc]
  exact List.take_left' (by simp)

theorem frame_eq (out seed tag body : List Byte) (n : Nat)
    (hs : seed.length = 8) (ht : tag.length = 16) :
    memcpy (memcpy (memcpy (memcpy out 0 [PACKET_HEADER] 1) 1 seed IV_RAND)
        (1 + IV_RAND) tag 16) (1 + IV_RAND + 16) body n
      = PACKET_HEADER :: (seed ++ (tag ++ (body.take n ++ out.drop (25 + n)))) := by
  have h1 : memcpy out 0 [PACKET_HEADER] 1 = PACKET_HEADER :: out.drop 1 := by
    simp [memcpy]
  have hs8 : seed.take 8 = seed := List.take_of_length_le (by omega)
  have ht16 : tag.take 16 = tag := List.take_of_length_le (by omega)
  have h2 : memcpy (PACKET_HEADER :: out.drop 1) 1 seed IV_RAND
      = PACKET_HEADER :: (seed ++ out.drop 9) := by
    simp [memcpy, IV_RAND, hs8]
  have h3 : memcpy (PACKET_HEADER :: (seed ++ out.drop 9)) (1 + IV_RAND) tag 16
      = PACKET_HEADER :: (seed ++ (tag ++ out.drop 25)) := by
    have e1 : (seed ++ out.drop 9).take 8 = seed := List.take_left' hs
    have e2 : (seed ++ out.drop 9).drop 24 = out.drop 25 := by
      rw [List.drop_append_eq_append_drop]
      simp [hs]
    simp [memcpy, IV_RAND, ht16, e1, e2]
  have h4 : memcpy (PACKET_HEADER :: (seed ++ (tag ++ out.drop 25))) (1 + IV_RAND + 16) body n
      = PACKET_HEADER :: (seed ++ (tag ++ (body.take n ++ out.drop (25 + n)))) := by
    have e1 : (seed ++ (tag ++ out.drop 25)).take 24 = seed ++ tag := by
      rw [← List.append_assoc]
      exact List.take_left' (by simp [hs, ht])
    have e2 : (seed ++ (tag ++ out.drop 25)).drop (24 + n) = out.drop (25 + n) := by
      rw [← List.append_assoc, List.drop_append_eq_append_drop]
      simp [hs, ht]
    simp only [memcpy, IV_RAND, List.take_succ_cons, e1, List.cons_append, List.append_assoc,
      List.cons.injEq, true_and, List.append_cancel_left_eq]
    rw [← e2, show 1 + 8 + 16 + n = (24 + n) + 1 by omega, List.drop_succ_cons]
  rw [h1, h2, h3, h4]

/-! ## The codec, step by step -/

theorem seed_length (env : Env) (hl : SealLaws env) :
    (gen_iv env 1 (memset 0 IV_RAND)).2.length = 8 := by
  simp only [gen_iv, if_true]
  rw [hl.rand_len _ _ (by simp [memset])]
  simp [memset, IV_RAND]

theorem gen_iv_replay (env : Env) (rd : List Byte) :
    (gen_iv env 0 (gen_iv env 1 rd).2).1 = (gen_iv env 1 rd).1 := by
  simp [gen_iv]

theorem encrypt_data_eq (env : Env) (hl : SealLaws env) (inp out : List Byte) (len : Int)
    (c f : List Byte)
    (hU : env.EVP_EncryptUpdate (gen_key env) (gen_iv env 1 (memset 0 IV_RAND)).1
      ((memcpy (memset 0 MAX_LEN) 0 inp (to_size_t len)).take len.toNat) len = some c)
    (hF : env.EVP_EncryptFinal_ex (gen_key env) (gen_iv env 1 (memset 0 IV_RAND)).1
      ((memcpy (memset 0 MAX_LEN) 0 inp (to_size_t len)).take len.toNat) = some f) :
    encrypt_data env inp len out =
      ⟨(c.length : Int) + 25,
        PACKET_HEADER :: ((gen_iv env 1 (memset 0 IV_RAND)).2 ++
          (env.EVP_CTRL_GCM_GET_TAG (gen_key env) (gen_iv env 1 (memset 0 IV_RAND)).1
              ((memcpy (memset 0 MAX_LEN) 0 inp (to_size_t len)).take len.toNat) ++
            (c ++ out.drop (25 + c.length))))⟩ := by
  have hf := hl.final_nil _ _ _ _ hF
  subst hf
  unfold encrypt_data
  simp only [hU, hF]
  rw [frame_eq _ _ _ _ _ (seed_length env hl) (hl.tag_len _ _ _), outbuf_take]
  simp [HEADER_SIZE]

theorem encrypt_data_fail_update (env : Env) (inp out : List Byte) (len : Int)
    (hU : env.EVP_EncryptUpdate (gen_key env) (gen_iv env 1 (memset 0 IV_RAND)).1
      ((memcpy (memset 0 MAX_LEN) 0 inp (to_size_t len)).take len.toNat) len = none) :
    encrypt_data env inp len out = ⟨0, out⟩ := by
  unfold encrypt_data
  simp only [hU]

theorem encrypt_data_fail_final (env : Env) (inp out : List Byte) (len : Int)
    (hF : env.EVP_EncryptFinal_ex (gen_key env) (gen_iv env 1 (memset 0 IV_RAND)).1
      ((memcpy (memset 0 MAX_LEN) 0 inp (to_size_t len)).take len.toNat) = none) :
    encrypt_data env inp len out = ⟨0, out⟩ := by
  unfold encrypt_data
  simp only [hF]
  split <;> rfl

theorem decrypt_data_fail_final (env : Env) (inp out : List Byte) (len : Int)
    (hF : env.EVP_DecryptFinal_ex (gen_key env)
      (gen_iv env 0 (memcpy (memset 0 IV_RAND) 0 (inp.drop 1) IV_RAND)).1
      ((inp.drop (1 + IV_RAND + 16)).take len.toNat)
      (memcpy (memset 0 16) 0 (inp.drop (1 + IV_RAND)) 16) = none) :
    decrypt_data env inp len out = ⟨0, out⟩ := by
  unfold decrypt_data
  simp only [hF]
  split <;> rfl

theorem decrypt_data_fail_update (env : Env) (inp out : List Byte) (len : Int)
    (hU : env.EVP_DecryptUpdate (gen_key env)
      (gen_iv env 0 (memcpy (memset 0 IV_RAND) 0 (inp.drop 1) IV_RAND)).1
      ((inp.drop (1 + IV_RAND + 16)).take len.toNat) len = none) :
    decrypt_data env inp len out = ⟨0, out⟩ := by
  unfold decrypt_data
  simp only [hU]

theorem decrypt_data_eq (env : Env) (inp out : List Byte) (len : Int) (p f : List Byte)
    (hU : env.EVP_DecryptUpdate (gen_key env)
      (gen_iv env 0 (memcpy (memset 0 IV_RAND) 0 (inp.drop 1) IV_RAND)).1
      ((inp.drop (1 + IV_RAND + 16)).take len.toNat) len = some p)
    (hF : env.EVP_DecryptFinal_ex (gen_key env)
      (gen_iv env 0 (memcpy (memset 0 IV_RAND) 0 (inp.drop 1) IV_RAND)).1
      ((inp.drop (1 + IV_RAND + 16)).take len.toNat)
      (memcpy (memset 0 16) 0 (inp.drop (1 + IV_RAND)) 16) = some f) :
    decrypt_data env inp len out = ⟨len, p ++ f ++ out.drop (p.length + f.length)⟩ := by
  unfold decrypt_data
  simp only [hU, hF]
  rw [memcpy_at_zero, outbuf_take]

theorem packet_parts (seed tag c pad : List Byte) (hs : seed.length = 8)
    (ht : tag.length = 16) :
    memcpy (memset 0 IV_RAND) 0
        ((PACKET_HEADER :: (seed ++ (tag ++ c)) ++ pad).drop 1) IV_RAND = seed ∧
    memcpy (memset 0 16) 0
        ((PACKET_HEADER :: (seed ++ (tag ++ c)) ++ pad).drop (1 + IV_RAND)) 16 = tag ∧
    (PACKET_HEADER :: (seed ++ (tag ++ c)) ++ pad).drop (1 + IV_RAND + 16) = c ++ pad := by
  have d1 : (PACKET_HEADER :: (seed ++ (tag ++ c)) ++ pad).drop 1
      = seed ++ (tag ++ (c ++ pad)) := by
    simp
  have d9 : (PACKET_HEADER :: (seed ++ (tag ++ c)) ++ pad).drop (1 + IV_RAND)
      = tag ++ (c ++ pad) := by
    simp only [IV_RAND, List.cons_append, List.append_assoc]
    rw [show 1 + 8 = 8 + 1 from rfl, List.drop_succ_cons]
    exact List.drop_left' hs
  have d25 : (PACKET_HEADER :: (seed ++ (tag ++ c)) ++ pad).drop (1 + IV_RAND + 16)
      = c ++ pad := by
    simp only [IV_RAND, List.cons_append, List.append_assoc]
    rw [show 1 + 8 + 16 = 24 + 1 from rfl, List.drop_succ_cons, ← List.append_assoc]
    exact List.drop_left' (by simp [hs, ht])
  refine ⟨?_, ?_, d25⟩
  · rw [memcpy_fresh, d1]
    exact List.take_left' hs
  · rw [memcpy_fresh, d9]
    exact List.take_left' ht

theorem to_int_small (x : Int) (h0 : -2147483648 ≤ x) (h1 : x < 2147483648) : to_int x = x := by
  unfold to_int
  omega

theorem recv_nonzero (env : Env) (sockfd : Int) (buf : List Byte) (len : Nat) (flags : Int)
    (r : Int) (temp : List Byte) (hfd : sockfd ≠ 0)
    (h : env.old_recv sockfd (memset 0 MAX_LEN) MAX_LEN flags = (r, temp))
    (h1 : 1 ≤ r) (hmax : r ≤ MAX_LEN) :
    recv env sockfd buf len flags =
      if temp.getD 0 0 ≠ PACKET_HEADER then
        ⟨0, buf, [], 0, [Call.old_recv sockfd (memset 0 MAX_LEN) MAX_LEN flags]⟩
      else
        ⟨(decrypt_data env temp (r - HEADER_SIZE) (memset 0 MAX_LEN)).ret,
          memcpy buf 0 (decrypt_data env temp (r - HEADER_SIZE) (memset 0 MAX_LEN)).out
            (to_size_t (decrypt_data env temp (r - HEADER_SIZE) (memset 0 MAX_LEN)).ret),
          [], 0,
          [Call.old_recv sockfd (memset 0 MAX_LEN) MAX_LEN flags,
            Call.decrypt_data temp (r - HEADER_SIZE)]⟩ := by
  have hr : to_int r = r := to_int_small r (by omega) (by simp only [MAX_LEN] at hmax; omega)
  have hlt : ¬ r < 1 := by omega
  unfold recv
  simp only [hfd, if_false, h, hr, hlt]

theorem recvfrom_nonzero (env : Env) (sockfd : Int) (buf : List Byte) (len : Nat) (flags : Int)
    (src_addr : SockAddr) (addrlen : Nat) (r : Int) (temp : List Byte) (a : SockAddr) (al : Nat)
    (hfd : sockfd ≠ 0)
    (h : env.old_recvfrom sockfd (memset 0 MAX_LEN) MAX_LEN flags src_addr addrlen
      = (r, temp, a, al))
    (h1 : 1 ≤ r) (hmax : r ≤ MAX_LEN) :
    recvfrom env sockfd buf len flags src_addr addrlen =
      if temp.getD 0 0 ≠ PACKET_HEADER then
        ⟨0, buf, a, al,
          [Call.old_recvfrom sockfd (memset 0 MAX_LEN) MAX_LEN flags src_addr addrlen]⟩
      else
        ⟨(decrypt_data env temp (r - HEADER_SIZE) (memset 0 MAX_LEN)).ret,
          memcpy buf 0 (decrypt_data env temp (r - HEADER_SIZE) (memset 0 MAX_LEN)).out
            (to_size_t (decrypt_data env temp (r - HEADER_SIZE) (memset 0 MAX_LEN)).ret),
          a, al,
          [Call.old_recvfrom sockfd (memset 0 MAX_LEN) MAX_LEN flags src_addr addrlen,
            Call.decrypt_data temp (r - HEADER_SIZE)]⟩ := by
  have hr : to_int r = r := to_int_small r (by omega) (by simp only [MAX_LEN] at hmax; omega)
  have hlt : ¬ r < 1 := by omega
  unfold recvfrom
  simp only [hfd, if_false, h, hr, hlt]

theorem encrypt_data_ok (env : Env) (hl : SealLaws env) (buf out : List Byte) (len : Nat)
    (hbuf : len ≤ buf.length) (hlt : len < 2147483648)
    (hs : (encrypt_data env buf len out).ret ≠ 0) :
    ∃ c, env.EVP_EncryptUpdate (gen_key env) (gen_iv env 1 (memset 0 IV_RAND)).1
        (buf.take len) len = some c ∧ c.length = len ∧
      encrypt_data env buf len out =
        ⟨(len : Int) + 25,
          PACKET_HEADER :: ((gen_iv env 1 (memset 0 IV_RAND)).2 ++
            (env.EVP_CTRL_GCM_GET_TAG (gen_key env) (gen_iv env 1 (memset 0 IV_RAND)).1
                (buf.take len) ++
              (c ++ out.drop (25 + len))))⟩ := by
  have hfed := temp_take buf len hbuf (by omega)
  cases hU : env.EVP_EncryptUpdate (gen_key env) (gen_iv env 1 (memset 0 IV_RAND)).1
      (buf.take len) len with
  | none =>
    exact absurd (by rw [encrypt_data_fail_update env buf out len (by rw [hfed]; exact hU)]) hs
  | some c =>
    cases hF : env.EVP_EncryptFinal_ex (gen_key env) (gen_iv env 1 (memset 0 IV_RAND)).1
        (buf.take len) with
    | none =>
      exact absurd
        (by rw [encrypt_data_fail_final env buf out len (by rw [hfed]; exact hF)]) hs
    | some f =>
      have hc : c.length = len := by
        rw [hl.update_len _ _ _ _ _ hU]
        simp [hbuf]
      have he := encrypt_data_eq env hl buf out len c f (by rw [hfed]; exact hU)
        (by rw [hfed]; exact hF)
      rw [hfed, hc] at he
      exact ⟨c, rfl, hc, he⟩

theorem framed_length (seed tag c out : List Byte) (n : Nat) (hs : seed.length = 8)
    (ht : tag.length = 16) (hc : c.length = n) (hn : 25 + n ≤ out.length) :
    (PACKET_HEADER :: (seed ++ (tag ++ (c ++ out.drop (25 + n))))).length = out.length := by
  simp [hs, ht, hc]
  omega

theorem send_eq (env : Env) (sockfd : Int) (buf : List Byte) (len : Nat) (flags : Int)
    (hlt : len < 2147483648)
    (hs : (encrypt_data env buf len (memset 0 MAX_LEN)).ret = (len : Int) + 25) :
    send env sockfd buf len flags =
      ⟨len, [Call.encrypt_data buf len,
        Call.old_send sockfd (encrypt_data env buf len (memset 0 MAX_LEN)).out (len + 25)
          flags]⟩ := by
  have h1 : to_int (len : Int) = len := to_int_natCast len hlt
  have h2 : to_size_t ((len : Int) + 25) = len + 25 := by
    have := to_size_t_natCast (len + 25) (by omega)
    simpa using this
  have h3 : to_ssize_t (len : Int) = len := to_ssize_t_natCast len (by omega)
  have h4 : ¬ ((len : Int) + 25 = 0) := by omega
  unfold send
  simp only [h1, hs, h2, h3, h4, if_false]

theorem sendto_eq (env : Env) (sockfd : Int) (buf : List Byte) (len : Nat) (flags : Int)
    (dest_addr : SockAddr) (addrlen : Nat) (hlt : len < 2147483648)
    (hs : (encrypt_data env buf len (memset 0 MAX_LEN)).ret = (len : Int) + 25) :
    sendto env sockfd buf len flags dest_addr addrlen =
      ⟨len, [Call.encrypt_data buf len,
        Call.old_sendto sockfd (encrypt_data env buf len (memset 0 MAX_LEN)).out (len + 25)
          flags dest_addr addrlen]⟩ := by
  have h1 : to_int (len : Int) = len := to_int_natCast len hlt
  have h2 : to_size_t ((len : Int) + 25) = len + 25 := by
    have := to_size_t_natCast (len + 25) (by omega)
    simpa using this
  have h3 : to_ssize_t (len : Int) = len := to_ssize_t_natCast len (by omega)
  have h4 : ¬ ((len : Int) + 25 = 0) := by omega
  unfold sendto
  simp only [h1, hs, h2, h3, h4, if_false]

/-! ## The worked-example environment satisfies the laws -/

theorem demo_seal_laws (rand_ok : Bool) (wire : List Byte) : SealLaws (demoEnv rand_ok wire) where
  rand_len := by
    intro buf n h
    cases rand_ok <;> simp [demoEnv]
    omega
  tag_len := by
    intro key iv inp
    simp [demoEnv, demo_tag]
  update_len := by
    intro key iv inp inl c h
    simp only [demoEnv] at h
    split at h
    · simp at h
    · simp only [Option.some.injEq] at h
      subst h
      simp
  final_nil := by
    intro key iv inp f h
    simp only [demoEnv, Option.some.injEq] at h
    exact h.symm

theorem demo_open_inverts_seal (rand_ok : Bool) (wire : List Byte) :
    OpenInvertsSeal (demoEnv rand_ok wire) where
  open_seal := by
    intro key iv inp inl c h _
    simp only [demoEnv] at h ⊢
    split at h
    · simp at h
    · rename_i hneg
      simp only [Option.some.injEq] at h
      subst h
      simp [hneg, Function.comp_def]

/-! ## Evaluating the worked-example environment -/

theorem demo_encrypt_data (rand_ok : Bool) (wire buf out : List Byte) (len : Nat)
    (hbuf : len ≤ buf.length) (hlt : len < 2147483648) :
    encrypt_data (demoEnv rand_ok wire) buf len out =
      ⟨(len : Int) + 25,
        PACKET_HEADER :: ((gen_iv (demoEnv rand_ok wire) 1 (memset 0 IV_RAND)).2 ++
          ((demoEnv rand_ok wire).EVP_CTRL_GCM_GET_TAG (gen_key (demoEnv rand_ok wire))
              (gen_iv (demoEnv rand_ok wire) 1 (memset 0 IV_RAND)).1 (buf.take len) ++
            ((buf.take len).map
                (· + demo_mask (gen_key (demoEnv rand_ok wire))
                  (gen_iv (demoEnv rand_ok wire) 1 (memset 0 IV_RAND)).1) ++
              out.drop (25 + len))))⟩ := by
  have hfed := temp_take buf len hbuf (by omega)
  have he := encrypt_data_eq (demoEnv rand_ok wire) (demo_seal_laws rand_ok wire) buf out len
    ((buf.take len).map
      (· + demo_mask (gen_key (demoEnv rand_ok wire))
        (gen_iv (demoEnv rand_ok wire) 1 (memset 0 IV_RAND)).1)) []
    (by rw [hfed]; simp [demoEnv]) (by simp [demoEnv])
  rw [hfed] at he
  rw [he]
  simp [hbuf]

theorem demo_encrypt_hello (wire : List Byte) :
    encrypt_data (demoEnv true wire) hello (5 : Nat) (memset 0 MAX_LEN) =
      ⟨30, hello_packet ++ (memset 0 MAX_LEN).drop 30⟩ := by
  rw [demo_encrypt_data true wire hello (memset 0 MAX_LEN) 5 (by decide) (by decide)]
  have h1 : (gen_iv (demoEnv true wire) 1 (memset 0 IV_RAND)).2
      = [165, 165, 165, 165, 165, 165, 165, 165] := rfl
  have h2 : (demoEnv true wire).EVP_CTRL_GCM_GET_TAG (gen_key (demoEnv true wire))
      (gen_iv (demoEnv true wire) 1 (memset 0 IV_RAND)).1 (hello.take 5)
      = [90, 90, 90, 90, 90, 90, 90, 90, 90, 90, 90, 90, 90, 90, 90, 90] := rfl
  have h3 : (hello.take 5).map
      (· + demo_mask (gen_key (demoEnv true wire))
        (gen_iv (demoEnv true wire) 1 (memset 0 IV_RAND)).1) = [73, 70, 77, 77, 80] := rfl
  rw [h1, h2, h3]
  rfl

theorem demo_encrypt_hello_unseeded (wire : List Byte) :
    encrypt_data (demoEnv false wire) hello (5 : Nat) (memset 0 MAX_LEN) =
      ⟨30, unseeded_packet ++ (memset 0 MAX_LEN).drop 30⟩ := by
  rw [demo_encrypt_data false wire hello (memset 0 MAX_LEN) 5 (by decide) (by decide)]
  have h1 : (gen_iv (demoEnv false wire) 1 (memset 0 IV_RAND)).2
      = [0, 0, 0, 0, 0, 0, 0, 0] := rfl
  have h2 : (demoEnv false wire).EVP_CTRL_GCM_GET_TAG (gen_key (demoEnv false wire))
      (gen_iv (demoEnv false wire) 1 (memset 0 IV_RAND)).1 (hello.take 5)
      = [26, 26, 26, 26, 26, 26, 26, 26, 26, 26, 26, 26, 26, 26, 26, 26] := rfl
  have h3 : (hello.take 5).map
      (· + demo_mask (gen_key (demoEnv false wire))
        (gen_iv (demoEnv false wire) 1 (memset 0 IV_RAND)).1)
      = [105, 102, 109, 109, 112] := rfl
  rw [h1, h2, h3]
  rfl

theorem demo_encrypt_length (rand_ok : Bool) (wire buf out : List Byte) (len : Nat)
    (hbuf : len ≤ buf.length) (hlt : len < 2147483648) :
    (encrypt_data (demoEnv rand_ok wire) buf len out).out.length
      = 25 + len + (out.length - (25 + len)) := by
  rw [demo_encrypt_data rand_ok wire buf out len hbuf hlt]
  simp [seed_length _ (demo_seal_laws rand_ok wire), (demo_seal_laws rand_ok wire).tag_len, hbuf]
  omega

theorem demo_encrypt_ret (rand_ok : Bool) (wire buf out : List Byte) (len : Nat)
    (hbuf : len ≤ buf.length) (hlt : len < 2147483648) :
    (encrypt_data (demoEnv rand_ok wire) buf len out).ret = (len : Int) + 25 := by
  rw [demo_encrypt_data rand_ok wire buf out len hbuf hlt]

/-! ## Claims -/

/-- C2 (wire format).  For a plaintext `P` of at most `MAX_PAYLOAD` bytes on which the AES-GCM
seal succeeds, `encrypt_data` returns `len(P) + 25`, and the first `len(P) + 25` bytes of `out`
are the marker `0x17`, then the 8-byte seed (the very bytes `gen_iv` fed to PBKDF2 to obtain
the nonce), then the 16-byte tag, then the ciphertext, which is as long as `P`. -/
theorem encrypt_data_wire_format (env : Env) (hl : SealLaws env) (P out c : List Byte)
    (hn : P.length ≤ MAX_PAYLOAD)
    (hU : env.EVP_EncryptUpdate (gen_key env) (gen_iv env 1 (memset 0 IV_RAND)).1 P P.length
      = some c)
    (hF : env.EVP_EncryptFinal_ex (gen_key env) (gen_iv env 1 (memset 0 IV_RAND)).1 P ≠ none) :
    (encrypt_data env P P.length out).ret = P.length + 25 ∧
    (encrypt_data env P P.length out).out.take (P.length + 25) =
      PACKET_HEADER :: ((gen_iv env 1 (memset 0 IV_RAND)).2 ++
        (env.EVP_CTRL_GCM_GET_TAG (gen_key env) (gen_iv env 1 (memset 0 IV_RAND)).1 P ++ c)) ∧
    (gen_iv env 1 (memset 0 IV_RAND)).2.length = 8 ∧
    (gen_iv env 1 (memset 0 IV_RAND)).1 =
      env.PKCS5_PBKDF2_HMAC_SHA1 (gen_iv env 1 (memset 0 IV_RAND)).2 IV_RAND IV_SALT
        (strlen IV_SALT) ITERATIONS IV_SIZE ∧
    (env.EVP_CTRL_GCM_GET_TAG (gen_key env) (gen_iv env 1 (memset 0 IV_RAND)).1 P).length = 16 ∧
    c.length = P.length := by
  have hlt : P.length < 18446744073709551616 := by
    simp only [MAX_PAYLOAD, MAX_LEN, HEADER_SIZE] at hn
    omega
  have hfed : (memcpy (memset 0 MAX_LEN) 0 P (to_size_t (P.length : Int))).take
      (P.length : Int).toNat = P := by
    rw [temp_take P P.length (Nat.le_refl _) hlt, List.take_length]
  obtain ⟨f, hf⟩ := Option.ne_none_iff_exists'.mp hF
  have hc : c.length = P.length := hl.update_len _ _ _ _ _ hU
  have hseed := seed_length env hl
  have htag := hl.tag_len (gen_key env) (gen_iv env 1 (memset 0 IV_RAND)).1 P
  have he := encrypt_data_eq env hl P out P.length c f (by rw [hfed]; exact hU)
    (by rw [hfed]; exact hf)
  rw [hfed] at he
  rw [he]
  refine ⟨by simp [hc], ?_, hseed, rfl, htag, hc⟩
  simp only [List.take_succ_cons, List.cons.injEq, true_and]
  exact take_three _ _ _ _ _ (by simp [hseed, htag, hc]; omega)


/-- C2 at the plaintext `hello`: the seal succeeds in the worked-example environment, and
`encrypt_data` returns 30 with a 30-byte packet that starts with `0x17`. -/
theorem encrypt_data_wire_format_hello :
    (hello.length ≤ MAX_PAYLOAD ∧
      (demoEnv true []).EVP_EncryptUpdate (gen_key (demoEnv true []))
        (gen_iv (demoEnv true []) 1 (memset 0 IV_RAND)).1 hello hello.length
        = some [73, 70, 77, 77, 80]) ∧
    (encrypt_data (demoEnv true []) hello 5 (memset 0 MAX_LEN)).ret = 30 ∧
    (encrypt_data (demoEnv true []) hello 5 (memset 0 MAX_LEN)).out.take 30 =
      [0x17, 165, 165, 165, 165, 165, 165, 165, 165,
        90, 90, 90, 90, 90, 90, 90, 90, 90, 90, 90, 90, 90, 90, 90, 90,
        73, 70, 77, 77, 80] := by
  have h := encrypt_data_wire_format (demoEnv true []) (demo_seal_laws true []) hello
    (memset 0 MAX_LEN) [73, 70, 77, 77, 80] (by decide) (by decide) (by decide)
  refine ⟨⟨by decide, by decide⟩, ?_, ?_⟩
  · exact h.1
  · exact h.2.1.trans (by decide)


/-- C1 (round trip).  Let `P` be a plaintext of at most `MAX_PAYLOAD` bytes (the empty one
included) from which `encrypt_data` built a packet, and let AES-GCM open invert seal.  Then
`decrypt_data`, called as `recv` calls it (on a buffer that starts with the packet, with
length = packet length - 25), returns `len(P)` and stores exactly the bytes of `P` at the
start of its output buffer, leaving the rest of that buffer as it was. -/
theorem decrypt_encrypt_round_trip (env : Env) (hl : SealLaws env) (ho : OpenInvertsSeal env)
    (P out pad out2 : List Byte) (hn : P.length ≤ MAX_PAYLOAD)
    (hs : (encrypt_data env P P.length out).ret ≠ 0) :
    decrypt_data env
      ((encrypt_data env P P.length out).out.take
          (to_size_t (encrypt_data env P P.length out).ret) ++ pad)
      ((encrypt_data env P P.length out).ret - HEADER_SIZE) out2
      = ⟨P.length, P ++ out2.drop P.length⟩ := by
  have hn2 : P.length ≤ 65510 := by
    simpa [MAX_PAYLOAD, MAX_LEN, HEADER_SIZE] using hn
  have hlt : P.length < 18446744073709551616 := by omega
  have hfed : (memcpy (memset 0 MAX_LEN) 0 P (to_size_t (P.length : Int))).take
      (P.length : Int).toNat = P := by
    rw [temp_take P P.length (Nat.le_refl _) hlt, List.take_length]
  cases hU : env.EVP_EncryptUpdate (gen_key env) (gen_iv env 1 (memset 0 IV_RAND)).1 P P.length with
  | none =>
    exact absurd (by rw [encrypt_data_fail_update env P out P.length (by rw [hfed]; exact hU)]) hs
  | some c =>
    cases hF : env.EVP_EncryptFinal_ex (gen_key env) (gen_iv env 1 (memset 0 IV_RAND)).1 P with
    | none =>
      exact absurd
        (by rw [encrypt_data_fail_final env P out P.length (by rw [hfed]; exact hF)]) hs
    | some f =>
      have hf : f = [] := hl.final_nil _ _ _ _ hF
      subst hf
      have hc : c.length = P.length := hl.update_len _ _ _ _ _ hU
      have hseed := seed_length env hl
      have htag := hl.tag_len (gen_key env) (gen_iv env 1 (memset 0 IV_RAND)).1 P
      have he := encrypt_data_eq env hl P out P.length c [] (by rw [hfed]; exact hU)
        (by rw [hfed]; exact hF)
      rw [hfed] at he
      have hret : to_size_t ((c.length : Int) + 25) = c.length + 25 := by
        have := to_size_t_natCast (c.length + 25) (by rw [hc]; omega)
        simpa using this
      have hlen : (c.length : Int) + 25 - (HEADER_SIZE : Nat) = (P.length : Int) := by
        simp [HEADER_SIZE, hc]
      have hpkt : List.take (c.length + 25)
          (PACKET_HEADER :: ((gen_iv env 1 (memset 0 IV_RAND)).2 ++
            (env.EVP_CTRL_GCM_GET_TAG (gen_key env) (gen_iv env 1 (memset 0 IV_RAND)).1 P ++
              (c ++ out.drop (25 + c.length)))))
          = PACKET_HEADER :: ((gen_iv env 1 (memset 0 IV_RAND)).2 ++
            (env.EVP_CTRL_GCM_GET_TAG (gen_key env) (gen_iv env 1 (memset 0 IV_RAND)).1 P
              ++ c)) := by
        simp only [List.take_succ_cons, List.cons.injEq, true_and]
        exact take_three _ _ _ _ _ (by simp [hseed, htag]; omega)
      rw [he]
      simp only [hret, hlen, hpkt]
      obtain ⟨p1, p2, p3⟩ := packet_parts (gen_iv env 1 (memset 0 IV_RAND)).2
        (env.EVP_CTRL_GCM_GET_TAG (gen_key env) (gen_iv env 1 (memset 0 IV_RAND)).1 P)
        c pad hseed htag
      obtain ⟨o1, o2⟩ := ho.open_seal _ _ _ _ _ hU hF
      have hct : List.take (P.length : Int).toNat (c ++ pad) = c := by
        simp only [Int.toNat_ofNat]
        exact List.take_left' hc
      have := decrypt_data_eq env
        (PACKET_HEADER :: ((gen_iv env 1 (memset 0 IV_RAND)).2 ++
            (env.EVP_CTRL_GCM_GET_TAG (gen_key env) (gen_iv env 1 (memset 0 IV_RAND)).1 P
              ++ c)) ++ pad) out2 P.length P []
        (by rw [p1, p3, gen_iv_replay, hct]; exact o1)
        (by rw [p1, p2, p3, gen_iv_replay, hct]; exact o2)
      simpa using this


/-- C1 at the plaintexts `hello` and the empty one, in the worked-example environment: both
packets are built, and decoding them gives back `hello` (return value 5) and nothing
(return value 0, output buffer untouched). -/
theorem decrypt_encrypt_round_trip_hello :
    (hello.length ≤ MAX_PAYLOAD ∧
      (encrypt_data (demoEnv true []) hello hello.length (memset 0 MAX_LEN)).ret ≠ 0 ∧
      (encrypt_data (demoEnv true []) [] 0 (memset 0 MAX_LEN)).ret ≠ 0) ∧
    decrypt_data (demoEnv true [])
      ((encrypt_data (demoEnv true []) hello hello.length (memset 0 MAX_LEN)).out.take
          (to_size_t (encrypt_data (demoEnv true []) hello hello.length (memset 0 MAX_LEN)).ret)
        ++ memset 0 (MAX_LEN - 30))
      ((encrypt_data (demoEnv true []) hello hello.length (memset 0 MAX_LEN)).ret - HEADER_SIZE)
      (memset 0 MAX_LEN)
      = ⟨5, hello ++ (memset 0 MAX_LEN).drop 5⟩ ∧
    decrypt_data (demoEnv true [])
      ((encrypt_data (demoEnv true []) [] 0 (memset 0 MAX_LEN)).out.take
          (to_size_t (encrypt_data (demoEnv true []) [] 0 (memset 0 MAX_LEN)).ret)
        ++ memset 0 (MAX_LEN - 25))
      ((encrypt_data (demoEnv true []) [] 0 (memset 0 MAX_LEN)).ret - HEADER_SIZE)
      (memset 0 MAX_LEN)
      = ⟨0, memset 0 MAX_LEN⟩ :=
  ⟨⟨by decide, by decide, by decide⟩,
    decrypt_encrypt_round_trip (demoEnv true []) (demo_seal_laws true [])
      (demo_open_inverts_seal true []) hello (memset 0 MAX_LEN) (memset 0 (MAX_LEN - 30))
      (memset 0 MAX_LEN) (by decide) (by decide),
    decrypt_encrypt_round_trip (demoEnv true []) (demo_seal_laws true [])
      (demo_open_inverts_seal true []) [] (memset 0 MAX_LEN) (memset 0 (MAX_LEN - 25))
      (memset 0 MAX_LEN) (by decide) (by decide)⟩


/-- C5 (tamper detection).  Let a packet of `r ≥ 25` bytes with first byte `0x17` sit in the
receive buffer `temp`, and let AES-GCM tag verification fail on it: `EVP_DecryptFinal_ex`,
for the derived key, the nonce derived from bytes 1..8, the ciphertext bytes 25..r-1 and the
tag bytes 9..24, returns 0.  Then `decrypt_data` returns 0 and leaves its output buffer as it
was, and on a non-zero descriptor `recv` and `recvfrom`, when the genuine primitive delivers
that packet, return 0 and leave the caller's buffer as it was. -/
theorem tamper_detection (env : Env) (sockfd : Int) (buf : List Byte) (len : Nat) (flags : Int)
    (r : Int) (temp out : List Byte)
    (hfd : sockfd ≠ 0) (h25 : 25 ≤ r) (hmax : r ≤ MAX_LEN)
    (hmark : temp.getD 0 0 = PACKET_HEADER)
    (hfail : env.EVP_DecryptFinal_ex (gen_key env)
      (gen_iv env 0 ((temp.drop 1).take 8)).1
      ((temp.drop 25).take (r - 25).toNat) ((temp.drop 9).take 16) = none) :
    decrypt_data env temp (r - HEADER_SIZE) out = ⟨0, out⟩ ∧
    (env.old_recv sockfd (memset 0 MAX_LEN) MAX_LEN flags = (r, temp) →
      (recv env sockfd buf len flags).ret = 0 ∧ (recv env sockfd buf len flags).buf = buf) ∧
    (∀ src_addr addrlen a al,
      env.old_recvfrom sockfd (memset 0 MAX_LEN) MAX_LEN flags src_addr addrlen
        = (r, temp, a, al) →
      (recvfrom env sockfd buf len flags src_addr addrlen).ret = 0 ∧
      (recvfrom env sockfd buf len flags src_addr addrlen).buf = buf) := by
  have hd : ∀ o : List Byte, decrypt_data env temp (r - HEADER_SIZE) o = ⟨0, o⟩ := by
    intro o
    apply decrypt_data_fail_final
    rw [memcpy_fresh, memcpy_fresh]
    exact hfail
  refine ⟨hd out, ?_, ?_⟩
  · intro h
    rw [recv_nonzero env sockfd buf len flags r temp hfd h (by omega) hmax]
    rw [if_neg (not_not.mpr hmark), hd]
    exact ⟨rfl, memcpy_zero_bytes _ _⟩
  · intro src_addr addrlen a al h
    rw [recvfrom_nonzero env sockfd buf len flags src_addr addrlen r temp a al hfd h
      (by omega) hmax]
    rw [if_neg (not_not.mpr hmark), hd]
    exact ⟨rfl, memcpy_zero_bytes _ _⟩


/-- C5 in the worked-example environment: the genuine read delivers `hello`'s packet with one
ciphertext bit flipped; the tag no longer verifies, `decrypt_data` returns 0 with its output
buffer untouched, and `recv` / `recvfrom` return 0 with the caller's buffer untouched. -/
theorem tamper_detection_flipped_bit :
    ((3 : Int) ≠ 0 ∧ (25 : Int) ≤ 30 ∧ (30 : Int) ≤ MAX_LEN ∧
      (memcpy (memset 0 MAX_LEN) 0 tampered_packet 30).getD 0 0 = PACKET_HEADER) ∧
    decrypt_data (demoEnv true tampered_packet) (memcpy (memset 0 MAX_LEN) 0 tampered_packet 30)
      (30 - HEADER_SIZE) (memset 0 MAX_LEN) = ⟨0, memset 0 MAX_LEN⟩ ∧
    ((recv (demoEnv true tampered_packet) 3 (memset 7 10) 10 0).ret = 0 ∧
      (recv (demoEnv true tampered_packet) 3 (memset 7 10) 10 0).buf = memset 7 10) ∧
    ((recvfrom (demoEnv true tampered_packet) 3 (memset 7 10) 10 0 [] 0).ret = 0 ∧
      (recvfrom (demoEnv true tampered_packet) 3 (memset 7 10) 10 0 [] 0).buf = memset 7 10) := by
  have h := tamper_detection (demoEnv true tampered_packet) 3 (memset 7 10) 10 0 30
    (memcpy (memset 0 MAX_LEN) 0 tampered_packet 30) (memset 0 MAX_LEN)
    (by decide) (by decide) (by decide) (by decide) (by decide)
  exact ⟨⟨by decide, by decide, by decide, by decide⟩, h.1, h.2.1 rfl, h.2.2 [] 0 [] 0 rfl⟩

/-- C8 (marker gate).  On a non-zero descriptor, when the genuine read returns `r ≥ 1` bytes
whose first byte is not `0x17`, `recv` and `recvfrom` return 0, leave the caller's buffer as
it was, and make no call besides the genuine read: `decrypt_data` is not called.  The result
mentions neither `r` nor any byte of the packet, so it is the same for any two such
packets. -/
theorem marker_gate (env : Env) (sockfd : Int) (buf : List Byte) (len : Nat) (flags : Int)
    (r : Int) (temp : List Byte)
    (hfd : sockfd ≠ 0) (h1 : 1 ≤ r) (hmax : r ≤ MAX_LEN)
    (hmark : temp.getD 0 0 ≠ PACKET_HEADER) :
    (env.old_recv sockfd (memset 0 MAX_LEN) MAX_LEN flags = (r, temp) →
      recv env sockfd buf len flags =
        ⟨0, buf, [], 0, [Call.old_recv sockfd (memset 0 MAX_LEN) MAX_LEN flags]⟩) ∧
    (∀ src_addr addrlen a al,
      env.old_recvfrom sockfd (memset 0 MAX_LEN) MAX_LEN flags src_addr addrlen
        = (r, temp, a, al) →
      recvfrom env sockfd buf len flags src_addr addrlen =
        ⟨0, buf, a, al,
          [Call.old_recvfrom sockfd (memset 0 MAX_LEN) MAX_LEN flags src_addr addrlen]⟩) := by
  constructor
  · intro h
    rw [recv_nonzero env sockfd buf len flags r temp hfd h h1 hmax, if_pos hmark]
  · intro src_addr addrlen a al h
    rw [recvfrom_nonzero env sockfd buf len flags src_addr addrlen r temp a al hfd h h1 hmax,
      if_pos hmark]

/-- C8 in the worked-example environment: three bytes starting with `0x16` are rejected by
`recv` and `recvfrom` with return value 0, the caller's buffer untouched and no decode call. -/
theorem marker_gate_foreign :
    ((3 : Int) ≠ 0 ∧ (1 : Int) ≤ 3 ∧ (3 : Int) ≤ MAX_LEN ∧
      (memcpy (memset 0 MAX_LEN) 0 foreign_packet 3).getD 0 0 ≠ PACKET_HEADER) ∧
    recv (demoEnv true foreign_packet) 3 (memset 7 10) 10 0 =
      ⟨0, memset 7 10, [], 0, [Call.old_recv 3 (memset 0 MAX_LEN) MAX_LEN 0]⟩ ∧
    recvfrom (demoEnv true foreign_packet) 3 (memset 7 10) 10 0 [] 0 =
      ⟨0, memset 7 10, [], 0, [Call.old_recvfrom 3 (memset 0 MAX_LEN) MAX_LEN 0 [] 0]⟩ := by
  have h := marker_gate (demoEnv true foreign_packet) 3 (memset 7 10) 10 0 3
    (memcpy (memset 0 MAX_LEN) 0 foreign_packet 3)
    (by decide) (by decide) (by decide) (by decide)
  exact ⟨⟨by decide, by decide, by decide, by decide⟩, h.1 rfl, h.2 [] 0 [] 0 rfl⟩


/-- C4 (send-direction result).  For a caller buffer of `len ≤ MAX_PAYLOAD` bytes on a
non-zero descriptor for which `encrypt_data` succeeds, `send` and `sendto` call the genuine
primitive exactly once, with the caller's descriptor and flags (and peer address for
`sendto`), the buffer `encrypt_data` filled and the length `len + 25` it returned; that
buffer still has `MAX_LEN` bytes.  They return `len`, the plaintext length, whatever the
genuine primitive returns. -/
theorem send_reports_plaintext_length (env : Env) (hl : SealLaws env) (sockfd : Int)
    (buf : List Byte) (len : Nat) (flags : Int) (dest_addr : SockAddr) (addrlen : Nat)
    (_hfd : sockfd ≠ 0) (hlen : len ≤ MAX_PAYLOAD) (hbuf : len ≤ buf.length)
    (hs : (encrypt_data env buf len (memset 0 MAX_LEN)).ret ≠ 0) :
    (encrypt_data env buf len (memset 0 MAX_LEN)).ret = (len : Int) + 25 ∧
    (encrypt_data env buf len (memset 0 MAX_LEN)).out.length = MAX_LEN ∧
    send env sockfd buf len flags =
      ⟨len, [Call.encrypt_data buf len,
        Call.old_send sockfd (encrypt_data env buf len (memset 0 MAX_LEN)).out (len + 25)
          flags]⟩ ∧
    sendto env sockfd buf len flags dest_addr addrlen =
      ⟨len, [Call.encrypt_data buf len,
        Call.old_sendto sockfd (encrypt_data env buf len (memset 0 MAX_LEN)).out (len + 25)
          flags dest_addr addrlen]⟩ := by
  have hn2 : len ≤ 65510 := by
    simpa [MAX_PAYLOAD, MAX_LEN, HEADER_SIZE] using hlen
  obtain ⟨c, _, hc, he⟩ := encrypt_data_ok env hl buf (memset 0 MAX_LEN) len hbuf (by omega) hs
  have hret : (encrypt_data env buf len (memset 0 MAX_LEN)).ret = (len : Int) + 25 := by
    rw [he]
  refine ⟨hret, ?_, send_eq env sockfd buf len flags (by omega) hret,
    sendto_eq env sockfd buf len flags dest_addr addrlen (by omega) hret⟩
  rw [he]
  rw [framed_length _ _ _ _ len (seed_length env hl) (hl.tag_len _ _ _) hc
    (by rw [memset_length]; simp only [MAX_LEN]; omega)]
  exact memset_length _ _

/-- C4 in the worked-example environment: `send` and `sendto` of `hello` on descriptor 3
hand 30 bytes to the genuine primitive once and return 5. -/
theorem send_reports_plaintext_length_hello :
    ((3 : Int) ≠ 0 ∧ 5 ≤ MAX_PAYLOAD ∧ 5 ≤ hello.length ∧
      (encrypt_data (demoEnv true []) hello (5 : Nat) (memset 0 MAX_LEN)).ret ≠ 0) ∧
    (encrypt_data (demoEnv true []) hello (5 : Nat) (memset 0 MAX_LEN)).ret = 30 ∧
    send (demoEnv true []) 3 hello 5 0 =
      ⟨5, [Call.encrypt_data hello 5,
        Call.old_send 3 (encrypt_data (demoEnv true []) hello (5 : Nat) (memset 0 MAX_LEN)).out
          30 0]⟩ ∧
    sendto (demoEnv true []) 3 hello 5 0 [127, 0, 0, 1] 4 =
      ⟨5, [Call.encrypt_data hello 5,
        Call.old_sendto 3
          (encrypt_data (demoEnv true []) hello (5 : Nat) (memset 0 MAX_LEN)).out 30 0
          [127, 0, 0, 1] 4]⟩ := by
  have h := send_reports_plaintext_length (demoEnv true []) (demo_seal_laws true []) 3 hello 5 0
    [127, 0, 0, 1] 4 (by decide) (by decide) (by decide) (by decide)
  exact ⟨⟨by decide, by decide, by decide, by decide⟩, h.1, h.2.2.1, h.2.2.2⟩


/-- C3 (sentinel bypass).  With descriptor 0, `recv` and `recvfrom` call the genuine
primitive with the caller's own buffer and length and return its result unchanged.  `send`
and `sendto` have no such test: with descriptor 0 and the plaintext `hello` they still hand
the genuine primitive the 30-byte encrypted packet and return 5, while the genuine primitive
returned 30. -/
theorem sentinel_bypass_only_on_receive :
    (∀ (env : Env) (buf : List Byte) (len : Nat) (flags : Int),
      recv env 0 buf len flags =
        ⟨(env.old_recv 0 buf len flags).1, (env.old_recv 0 buf len flags).2, [], 0,
          [Call.old_recv 0 buf len flags]⟩) ∧
    (∀ (env : Env) (buf : List Byte) (len : Nat) (flags : Int) (src_addr : SockAddr)
        (addrlen : Nat),
      recvfrom env 0 buf len flags src_addr addrlen =
        ⟨(env.old_recvfrom 0 buf len flags src_addr addrlen).1,
          (env.old_recvfrom 0 buf len flags src_addr addrlen).2.1,
          (env.old_recvfrom 0 buf len flags src_addr addrlen).2.2.1,
          (env.old_recvfrom 0 buf len flags src_addr addrlen).2.2.2,
          [Call.old_recvfrom 0 buf len flags src_addr addrlen]⟩) ∧
    send (demoEnv true []) 0 hello 5 0 =
      ⟨5, [Call.encrypt_data hello 5,
        Call.old_send 0 (hello_packet ++ (memset 0 MAX_LEN).drop 30) 30 0]⟩ ∧
    (demoEnv true []).old_send 0 (hello_packet ++ (memset 0 MAX_LEN).drop 30) 30 0 = 30 ∧
    sendto (demoEnv true []) 0 hello 5 0 [127, 0, 0, 1] 4 =
      ⟨5, [Call.encrypt_data hello 5,
        Call.old_sendto 0 (hello_packet ++ (memset 0 MAX_LEN).drop 30) 30 0 [127, 0, 0, 1] 4]⟩ ∧
    (demoEnv true []).old_sendto 0 (hello_packet ++ (memset 0 MAX_LEN).drop 30) 30 0
      [127, 0, 0, 1] 4 = 30 := by
  refine ⟨?_, ?_, ?_, rfl, ?_, rfl⟩
  · intro env buf len flags
    simp [recv]
  · intro env buf len flags src_addr addrlen
    simp [recvfrom]
  · rw [send_eq _ _ _ _ _ (by decide) (by rw [demo_encrypt_hello]; rfl), demo_encrypt_hello]
    rfl
  · rw [sendto_eq _ _ _ _ _ _ _ (by decide) (by rw [demo_encrypt_hello]; rfl),
      demo_encrypt_hello]
    rfl

/-- C6 (size boundary).  In the worked-example environment a plaintext of exactly
`MAX_PAYLOAD = 65510` bytes gives a packet of `MAX_LEN = 65535` bytes.  A plaintext of
65511 bytes is not refused: `encrypt_data` returns 65536, not 0, the buffer it wrote through
`out` is 65536 bytes long, one more than the `MAX_LEN` bytes of the array in `send`, and
`send` passes the length 65536 to the genuine primitive. -/
theorem oversized_payload_not_refused :
    MAX_PAYLOAD = 65510 ∧
    (encrypt_data (demoEnv true []) (List.replicate 65510 0) (65510 : Nat)
      (memset 0 MAX_LEN)).ret = 65535 ∧
    (encrypt_data (demoEnv true []) (List.replicate 65510 0) (65510 : Nat)
      (memset 0 MAX_LEN)).out.length = 65535 ∧
    (encrypt_data (demoEnv true []) (List.replicate 65511 0) (65511 : Nat)
      (memset 0 MAX_LEN)).ret = 65536 ∧
    (encrypt_data (demoEnv true []) (List.replicate 65511 0) (65511 : Nat)
      (memset 0 MAX_LEN)).out.length = 65536 ∧
    send (demoEnv true []) 3 (List.replicate 65511 0) 65511 0 =
      ⟨65511, [Call.encrypt_data (List.replicate 65511 0) 65511,
        Call.old_send 3
          (encrypt_data (demoEnv true []) (List.replicate 65511 0) (65511 : Nat)
            (memset 0 MAX_LEN)).out 65536 0]⟩ := by
  have hb0 : 65510 ≤ (List.replicate 65510 (0 : Byte)).length := by
    rw [List.length_replicate]
  have hb1 : 65511 ≤ (List.replicate 65511 (0 : Byte)).length := by
    rw [List.length_replicate]
  have r0 := demo_encrypt_ret true [] (List.replicate 65510 0) (memset 0 MAX_LEN) 65510 hb0
    (by decide)
  have r1 := demo_encrypt_ret true [] (List.replicate 65511 0) (memset 0 MAX_LEN) 65511 hb1
    (by decide)
  have l0 := demo_encrypt_length true [] (List.replicate 65510 0) (memset 0 MAX_LEN) 65510 hb0
    (by decide)
  have l1 := demo_encrypt_length true [] (List.replicate 65511 0) (memset 0 MAX_LEN) 65511 hb1
    (by decide)
  rw [memset_length] at l0 l1
  exact ⟨by decide, r0, l0, r1, l1, send_eq _ _ _ _ _ (by decide) r1⟩

/-- C7 (short packet).  In the worked-example environment the genuine read delivers 10 bytes
that start with `0x17`.  `recv` and `recvfrom` do not stop there: they call `decrypt_data`
with length `10 - 25 = -15`, and the 16-byte tag `decrypt_data` takes from offsets 9..24 is
the last received byte followed by fifteen bytes the read never delivered.  The stand-in
`EVP_DecryptUpdate` refuses the negative length, as current OpenSSL does, so the shims
return 0. -/
theorem short_packet_reaches_decrypt_data :
    recv (demoEnv true short_packet) 3 (memset 7 10) 10 0 =
      ⟨0, memset 7 10, [], 0,
        [Call.old_recv 3 (memset 0 MAX_LEN) MAX_LEN 0,
          Call.decrypt_data (memcpy (memset 0 MAX_LEN) 0 short_packet 10) (-15)]⟩ ∧
    recvfrom (demoEnv true short_packet) 3 (memset 7 10) 10 0 [] 0 =
      ⟨0, memset 7 10, [], 0,
        [Call.old_recvfrom 3 (memset 0 MAX_LEN) MAX_LEN 0 [] 0,
          Call.decrypt_data (memcpy (memset 0 MAX_LEN) 0 short_packet 10) (-15)]⟩ ∧
    memcpy (memset 0 16) 0
        ((memcpy (memset 0 MAX_LEN) 0 short_packet 10).drop (1 + IV_RAND)) 16
      = [9, 0, 0, 0, 0, 0, 0, 0, 0, 0, 0, 0, 0, 0, 0, 0] := by
  have hd : decrypt_data (demoEnv true short_packet)
      (memcpy (memset 0 MAX_LEN) 0 short_packet 10) (10 - HEADER_SIZE) (memset 0 MAX_LEN)
      = ⟨0, memset 0 MAX_LEN⟩ :=
    decrypt_data_fail_update _ _ _ _ (by decide)
  refine ⟨?_, ?_, by decide⟩
  · rw [recv_nonzero (demoEnv true short_packet) 3 (memset 7 10) 10 0 10
      (memcpy (memset 0 MAX_LEN) 0 short_packet 10) (by decide) rfl (by decide) (by decide),
      if_neg (by decide), hd]
    rfl
  · rw [recvfrom_nonzero (demoEnv true short_packet) 3 (memset 7 10) 10 0 [] 0 10
      (memcpy (memset 0 MAX_LEN) 0 short_packet 10) [] 0 (by decide) rfl (by decide)
      (by decide), if_neg (by decide), hd]
    rfl

/-- C9 (randomness failure).  In the worked-example environment with a failing random source,
`RAND_bytes` returns 0 and leaves the seed buffer as it was; `gen_iv` goes on with those
eight bytes, `encrypt_data` returns 30 with a complete packet whose seed field holds them,
and `send` and `sendto` hand that packet to the genuine primitive. -/
theorem rand_failure_still_sends :
    (demoEnv false []).RAND_bytes (memset 0 IV_RAND) IV_RAND = (0, memset 0 IV_RAND) ∧
    (gen_iv (demoEnv false []) 1 (memset 0 IV_RAND)).2 = [0, 0, 0, 0, 0, 0, 0, 0] ∧
    encrypt_data (demoEnv false []) hello (5 : Nat) (memset 0 MAX_LEN) =
      ⟨30, unseeded_packet ++ (memset 0 MAX_LEN).drop 30⟩ ∧
    send (demoEnv false []) 3 hello 5 0 =
      ⟨5, [Call.encrypt_data hello 5,
        Call.old_send 3 (unseeded_packet ++ (memset 0 MAX_LEN).drop 30) 30 0]⟩ ∧
    sendto (demoEnv false []) 3 hello 5 0 [127, 0, 0, 1] 4 =
      ⟨5, [Call.encrypt_data hello 5,
        Call.old_sendto 3 (unseeded_packet ++ (memset 0 MAX_LEN).drop 30) 30 0
          [127, 0, 0, 1] 4]⟩ := by
  refine ⟨by decide, by decide, demo_encrypt_hello_unseeded [], ?_, ?_⟩
  · rw [send_eq _ _ _ _ _ (by decide) (by rw [demo_encrypt_hello_unseeded]; rfl),
      demo_encrypt_hello_unseeded]
    rfl
  · rw [sendto_eq _ _ _ _ _ _ _ (by decide) (by rw [demo_encrypt_hello_unseeded]; rfl),
      demo_encrypt_hello_unseeded]
    rfl

/-- C10 as stated fails: the nonce salt `IV_SALT` and the key salt of `gen_key` are not
distinct byte strings. -/
theorem salts_not_distinct : ¬ (IV_SALT ≠ salt) := by decide

/-- C10, amended.  `gen_iv` calls PBKDF2-HMAC-SHA1 on the 8-byte seed with salt `IV_SALT`,
1000 iterations and a 12-byte output; `gen_key` calls it on the secret (`CH_KEY`, or the
fallback passphrase) with its local salt, 1000 iterations and a 32-byte output; both salts
are the 8 bytes of `changeme`, so the two byte strings are equal. -/
theorem derivation_salts_equal (env : Env) (new : Int) (random_data : List Byte) :
    (gen_iv env new random_data).1 =
      env.PKCS5_PBKDF2_HMAC_SHA1 (gen_iv env new random_data).2 8 IV_SALT 8 1000 12 ∧
    gen_key env =
      env.PKCS5_PBKDF2_HMAC_SHA1 ((env.getenv KEY_VAR).getD PASSPHRASE)
        ((env.getenv KEY_VAR).getD PASSPHRASE).length salt 8 1000 32 ∧
    IV_SALT = cstr "changeme" ∧ salt = cstr "changeme" ∧ IV_SALT = salt := by
  refine ⟨rfl, ?_, rfl, rfl, rfl⟩
  unfold gen_key
  cases env.getenv KEY_VAR <;> rfl


end CryptHook
